import Mathlib

/-!
Verification of the geometry-indexed raster cache of c3nav
(`src/c3nav/mapdata/utils/cache/indexed.py`): the `GeometryIndexed`
grid (binary codec, dynamic growth, rasterization, indexing) and the
epoch-keyed `LevelGeometryIndexed.open_level_cached` process cache.

Modelling conventions:
* numpy `uint16` cell values are `Nat` and are kept `< 65536`;
  `int16` header fields are `Int`;
* byte streams are `List Nat` with each entry `< 256`;
* the numpy array `self.data` of shape `(height, width)` is a
  `List (List Nat)` of `height` rows of length `width`, together with
  explicit `height`/`width` fields (needed because a numpy array of
  size 0 still remembers its shape);
* world coordinates (Python floats) are modelled as exact rationals ℚ;
  `math.floor(q / resolution)` is computed as `Int.fdiv q.num (q.den * res)`,
  which is proved below to equal `⌊q / res⌋`;
* shapely geometries (an external library) are modelled by the
  inductive `Geometry` with closed-set intersection semantics.
-/

/-- Little-endian byte pair of an unsigned 16-bit value (`struct.pack '<H'`). -/
def encU16 (v : Nat) : List Nat := [v % 256, v / 256 % 256]

/-- Little-endian byte pair of a signed 16-bit value, two's complement (`struct.pack '<h'`). -/
def encI16 (v : Int) : List Nat := encU16 (v % 65536).toNat

/-- Decode two little-endian bytes as an unsigned 16-bit value (`struct.unpack '<H'`). -/
def decU16 (b0 b1 : Nat) : Nat := b0 + 256 * b1

/-- Decode two little-endian bytes as a signed 16-bit two's complement value (`struct.unpack '<h'`). -/
def decI16 (b0 b1 : Nat) : Int :=
  if decU16 b0 b1 < 32768 then (decU16 b0 b1 : Int) else (decU16 b0 b1 : Int) - 65536

/-- Decode a byte list as consecutive little-endian unsigned 16-bit values
(`np.fromstring(..., np.uint16)` on a little-endian machine). A trailing odd
byte cannot occur on the paths below, where the length is always even. -/
def decU16List : List Nat → List Nat
  | b0 :: b1 :: rest => decU16 b0 b1 :: decU16List rest
  | _ => []

/-- Exact `floor(q / res)` on rationals; models `int(math.floor(v / self.resolution))`.
Equals `⌊q / (res : ℚ)⌋` (see `qfloorRes_eq_floor`); written with `Int.fdiv` on the
numerator and denominator so that it evaluates by kernel reduction. -/
def qfloorRes (q : ℚ) (res : Nat) : Int := Int.fdiv q.num (q.den * res)

/-- Exact `ceil(q / res)` on rationals; models `int(math.ceil(v / self.resolution))`.
Equals `⌈q / (res : ℚ)⌉` (see `qceilRes_eq_ceil`). -/
def qceilRes (q : ℚ) (res : Nat) : Int := -Int.fdiv (-q.num) (q.den * res)

/-- Shapely geometries, as far as this module uses them: the repository passes
points, axis-aligned boxes and general polygons to `GeometryIndexed`; the claims
under verification only involve empty geometries, points and axis-aligned
rectangles, so those are the modelled constructors. -/
inductive Geometry where
  | emptyGeom : Geometry
  | point (px py : ℚ) : Geometry
  | rect (minx miny maxx maxy : ℚ) : Geometry
deriving DecidableEq

/-- Well-formedness of a modelled geometry: a shapely box is built from
`minx ≤ maxx`, `miny ≤ maxy` (shapely's `bounds` is always normalised). -/
def Geometry.WF : Geometry → Prop
  | .rect a b c d => a ≤ c ∧ b ≤ d
  | _ => True

/-- Envelope of a geometry, modelling shapely's `geometry.bounds`
`(minx, miny, maxx, maxy)`. For an empty geometry shapely's result is
degenerate (version-dependent); it is modelled as `(0, 0, 0, 0)`, and every
theorem below about empty geometries holds for arbitrary supplied bounds. -/
def Geometry.boundsQ : Geometry → ℚ × ℚ × ℚ × ℚ
  | .emptyGeom => (0, 0, 0, 0)
  | .point px py => (px, py, px, py)
  | .rect a b c d => (a, b, c, d)

/-- Closed-set intersection test of a geometry with the world-space square
`box(x, y, x + res, y + res)` whose corners are integers, modelling
`prepared.prep(geometry).intersects(box(...))` (shapely's `intersects` is true
when the closed point sets meet, including boundary contact). -/
def Geometry.intersectsBox : Geometry → Int → Int → Nat → Bool
  | .emptyGeom, _, _, _ => false
  | .point px py, x, y, res =>
      decide ((x : ℚ) ≤ px) && decide (px ≤ ((x + res : Int) : ℚ)) &&
      decide ((y : ℚ) ≤ py) && decide (py ≤ ((y + res : Int) : ℚ))
  | .rect a b c d, x, y, res =>
      decide (a ≤ ((x + res : Int) : ℚ)) && decide (((x : Int) : ℚ) ≤ c) &&
      decide (b ≤ ((y + res : Int) : ℚ)) && decide (((y : Int) : ℚ) ≤ d)

/-- Build an `h × w` grid of values from an index function; used to model numpy
array allocation (`np.zeros`, slice assignment, `reshape`, the rasterization
mask) as lists of rows. -/
def mkGrid {α : Type} (h w : Nat) (f : Nat → Nat → α) : List (List α) :=
  (List.range h).map (fun i => (List.range w).map (f i))

/-- The `GeometryIndexed` instance state: `resolution`, grid-cell origin
`x`/`y`, and the cell array `data` of numpy shape `(height, width)`. -/
structure GeometryIndexed where
  resolution : Nat
  x : Int
  y : Int
  height : Nat
  width : Nat
  data : List (List Nat)
deriving DecidableEq

/-- Class attribute `variant_id = 0` of the base class. -/
def variantIdBase : Nat := 0

/-- Well-formedness tying the shape fields to the list-of-rows data and
recording the `uint16` dtype range of every cell. -/
def GeometryIndexed.WF (g : GeometryIndexed) : Prop :=
  g.data.length = g.height ∧ ∀ row ∈ g.data, row.length = g.width ∧ ∀ v ∈ row, v < 65536

/-- Cell value at row `i`, column `j` (`self.data[i, j]`), defaulting to 0
outside the array. -/
def GeometryIndexed.cell (g : GeometryIndexed) (i j : Nat) : Nat :=
  (g.data.getD i []).getD j 0

/-- Mask entry at row `i`, column `j`, defaulting to `false` outside. -/
def maskGet (m : List (List Bool)) (i j : Nat) : Bool :=
  (m.getD i []).getD j false

/-- Binary encoder `GeometryIndexed.write`: header
`struct.pack('<BBhhHH', variant_id, resolution, x, y, *reversed(data.shape))`
followed by (empty base-class metadata and) the row-major cell payload
`data.tobytes('C')`. `struct.pack` range-checks its arguments; the theorems
below carry those ranges as hypotheses. -/
def GeometryIndexed.write (g : GeometryIndexed) : List Nat :=
  [variantIdBase % 256, g.resolution % 256] ++ encI16 g.x ++ encI16 g.y ++
    encU16 g.width ++ encU16 g.height ++ g.data.flatten.flatMap encU16

/-- Failure modes of `GeometryIndexed.read`: `formatMismatch` is the
`ValueError('variant id does not match')`; `truncated` covers the
`struct.error`/numpy errors raised when the stream is too short. -/
inductive ReadError where
  | formatMismatch : ReadError
  | truncated : ReadError
deriving DecidableEq

/-- numpy `reshape((h, w))` of a flat value list into rows. -/
def reshape (h w : Nat) (flat : List Nat) : List (List Nat) :=
  (List.range h).map (fun i => (flat.drop (i * w)).take w)

/-- Binary decoder `GeometryIndexed.read`: unpack the 10-byte header, check the
variant id, then read exactly `width*height*itemsize` payload bytes and reshape
them to `(height, width)`. -/
def GeometryIndexed.read (bs : List Nat) : Except ReadError GeometryIndexed :=
  match bs with
  | v :: r :: x0 :: x1 :: y0 :: y1 :: w0 :: w1 :: h0 :: h1 :: rest =>
    if v = variantIdBase then
      let width := decU16 w0 w1
      let height := decU16 h0 h1
      if width * height * 2 ≤ rest.length then
        Except.ok { resolution := r, x := decI16 x0 x1, y := decI16 y0 y1,
                    height := height, width := width,
                    data := reshape height width (decU16List (rest.take (width * height * 2))) }
      else Except.error ReadError.truncated
    else Except.error ReadError.formatMismatch
  | _ => Except.error ReadError.truncated

/-- Grid growth `GeometryIndexed.fit_bounds`: when the array has nonzero size,
take the union of the current extent with the requested bounds, allocate zeros
of the union size and copy the old data at offset `(dy, dx)`; when the array
has size zero, the requested bounds are adopted as-is (the two `if
self.data.size:` branches in the source). -/
def GeometryIndexed.fit_bounds (g : GeometryIndexed) (minx miny maxx maxy : Int) :
    GeometryIndexed :=
  if 0 < g.width * g.height then
    let minx' := min g.x minx
    let miny' := min g.y miny
    let maxx' := max (g.x + g.width) maxx
    let maxy' := max (g.y + g.height) maxy
    let dx := (g.x - minx').toNat
    let dy := (g.y - miny').toNat
    { g with
      x := minx', y := miny',
      height := (maxy' - miny').toNat, width := (maxx' - minx').toNat,
      data := mkGrid (maxy' - miny').toNat (maxx' - minx').toNat (fun i j =>
        if dy ≤ i ∧ i < dy + g.height ∧ dx ≤ j ∧ j < dx + g.width then
          g.cell (i - dy) (j - dx)
        else 0) }
  else
    { g with
      x := minx, y := miny,
      height := (maxy - miny).toNat, width := (maxx - minx).toNat,
      data := mkGrid (maxy - miny).toNat (maxx - minx).toNat (fun _ _ => 0) }

/-- Cell-space envelope `GeometryIndexed._get_geometry_bounds`:
floor/floor/ceil/ceil of the geometry's world envelope divided by the
resolution. -/
def GeometryIndexed.geometryBounds (g : GeometryIndexed) (geom : Geometry) :
    Int × Int × Int × Int :=
  (qfloorRes geom.boundsQ.1 g.resolution, qfloorRes geom.boundsQ.2.1 g.resolution,
   qceilRes geom.boundsQ.2.2.1 g.resolution, qceilRes geom.boundsQ.2.2.2 g.resolution)

/-- Rasterization `GeometryIndexed.get_geometry_cells`: clamp the candidate
cell bounds to the current extent, then mark each candidate cell whose
world-space square intersects the geometry. The doubly nested `for` loop of
the source walks exactly the cells `(cy, cx)` with `miny ≤ cy < maxy`,
`minx ≤ cx < maxx` (after clamping, all inside the array) and sets
`cells[cy - self.y, cx - self.x]` when the prepared-geometry test fires;
the returned boolean array is its net effect, row `iy` column `ix` holding
the test result for cell `(self.y + iy, self.x + ix)` when that cell is a
candidate and `False` otherwise. -/
def GeometryIndexed.get_geometry_cells (g : GeometryIndexed) (geom : Geometry)
    (bounds : Option (Int × Int × Int × Int)) : List (List Bool) :=
  let b := bounds.getD (g.geometryBounds geom)
  let minx := max b.1 g.x
  let miny := max b.2.1 g.y
  let maxx := min b.2.2.1 (g.x + g.width)
  let maxy := min b.2.2.2 (g.y + g.height)
  mkGrid g.height g.width (fun iy ix =>
    decide (miny ≤ g.y + iy ∧ g.y + iy < maxy ∧ minx ≤ g.x + ix ∧ g.x + ix < maxx) &&
      geom.intersectsBox ((g.x + ix) * g.resolution) ((g.y + iy) * g.resolution) g.resolution)

/-- Masked assignment `self.data[cells] = value`: numpy casts the assigned
value to the `uint16` dtype, hence the `% 65536`. -/
def maskSet (data : List (List Nat)) (mask : List (List Bool)) (value : Nat) :
    List (List Nat) :=
  List.zipWith (fun row mrow => List.zipWith (fun c b => if b then value % 65536 else c) row mrow)
    data mask

/-- Masked selection `self.data[cells]`: the row-major list of values at
`True` mask positions. -/
def maskSelect (data : List (List Nat)) (mask : List (List Bool)) : List Nat :=
  (List.zipWith (fun (row : List Nat) (mrow : List Bool) =>
    (row.zip mrow).filterMap (fun p => if p.2 then some p.1 else none)) data mask).flatten

/-- Geometry write `GeometryIndexed.__setitem__`: compute the cell-space
envelope, grow the array to cover it, rasterize with those bounds, assign the
value at the marked cells. -/
def GeometryIndexed.setGeometry (g : GeometryIndexed) (geom : Geometry) (value : Nat) :
    GeometryIndexed :=
  let b := g.geometryBounds geom
  let g' := g.fit_bounds b.1 b.2.1 b.2.2.1 b.2.2.2
  { g' with data := maskSet g'.data (g'.get_geometry_cells geom (some b)) value }

/-- Rectangle read `GeometryIndexed.__getitem__` with a slice-pair key
`grid[xstart:xstop, ystart:ystop]`: convert the world rectangle to cell
indices, clamp below at 0 after subtracting the origin, slice, and flatten
row-major (`ravel`). numpy slicing clamps the upper index at the array size. -/
def GeometryIndexed.getRect (g : GeometryIndexed) (xstart ystart xstop ystop : ℚ) :
    List Nat :=
  let minx := (max 0 (qfloorRes xstart g.resolution - g.x)).toNat
  let miny := (max 0 (qfloorRes ystart g.resolution - g.y)).toNat
  let maxx := (max 0 (qceilRes xstop g.resolution - g.x)).toNat
  let maxy := (max 0 (qceilRes ystop g.resolution - g.y)).toNat
  (((g.data.drop miny).take (maxy - miny)).map (fun row => (row.drop minx).take (maxx - minx))).flatten

/-- Geometry read `GeometryIndexed.__getitem__` with a geometry key:
`self.data[self.get_geometry_cells(key, bounds)]`. -/
def GeometryIndexed.getGeometry (g : GeometryIndexed) (geom : Geometry) : List Nat :=
  maskSelect g.data (g.get_geometry_cells geom (some (g.geometryBounds geom)))

/-- State of the `LevelGeometryIndexed` process cache: the class attributes
`cache_key` (initially `None`) and `cached` (a dict keyed by
`(level_id, mode)`, modelled as an association list with newest entry first;
the code only inserts a key that is absent, so no key is shadowed). Grids are
identified abstractly by `Nat`; `mode` strings are likewise abstracted to
`Nat`. -/
structure LevelCacheState where
  cache_key : Option Nat
  cached : List ((Nat × Nat) × Nat)
deriving DecidableEq

/-- Dictionary lookup `cls.cached.get((level_id, mode), None)`. -/
def lookupEntry : List ((Nat × Nat) × Nat) → (Nat × Nat) → Option Nat
  | [], _ => none
  | (k, v) :: rest, key => if k = key then some v else lookupEntry rest key

/-- One call of `LevelGeometryIndexed.open_level_cached` under the cache lock,
as a step function: `load` is the file-store loader (`cls.open_level`), `ck`
the epoch token just obtained from `MapUpdate.current_processed_cache_key()`.
Returns the grid, the successor state, and whether a load was performed. -/
def open_level_cached (load : Nat × Nat → Nat) (ck : Nat) (st : LevelCacheState)
    (key : Nat × Nat) : Nat × LevelCacheState × Bool :=
  if st.cache_key = some ck then
    match lookupEntry st.cached key with
    | some r => (r, st, false)
    | none => (load key, ⟨st.cache_key, (key, load key) :: st.cached⟩, true)
  else
    (load key, ⟨some ck, [(key, load key)]⟩, true)

/-- Run a sequence of `open_level_cached` calls under a fixed epoch token,
logging for each call its key and whether it loaded from the file store. -/
def runCache (load : Nat × Nat → Nat) (ck : Nat) :
    LevelCacheState → List (Nat × Nat) → List ((Nat × Nat) × Bool)
  | _, [] => []
  | st, key :: keys =>
    let step := open_level_cached load ck st key
    (key, step.2.2) :: runCache load ck step.2.1 keys

/-- Number of file-store loads performed for `key` in a call log. -/
def countLoads (key : Nat × Nat) (log : List ((Nat × Nat) × Bool)) : Nat :=
  (log.filter (fun e => e.1 = key ∧ e.2 = true)).length

/-! Bridging lemmas for the exact rational floor/ceil division. -/

theorem qfloorRes_eq_floor (q : ℚ) (res : Nat) : qfloorRes q res = ⌊q / (res : ℚ)⌋ := by
  have hq : q / (res : ℚ) = (q.num : ℚ) / ((q.den * res : ℕ) : ℚ) := by
    conv_lhs => rw [← Rat.num_div_den q]
    push_cast
    rw [div_div]
  rw [qfloorRes, hq, Rat.floor_intCast_div_natCast]
  push_cast
  exact @Int.fdiv_eq_ediv q.num ((q.den : ℤ) * (res : ℤ)) (by positivity)

theorem qceilRes_eq_ceil (q : ℚ) (res : Nat) : qceilRes q res = ⌈q / (res : ℚ)⌉ := by
  have hneg : qceilRes q res = -qfloorRes (-q) res := by
    simp [qceilRes, qfloorRes, Rat.neg_num, Rat.neg_den]
  rw [hneg, qfloorRes_eq_floor, neg_div, Int.floor_neg, neg_neg]

/-! Little-endian 16-bit codec round-trip lemmas. -/

theorem decU16_encU16 (v : Nat) (h : v < 65536) : decU16 (v % 256) (v / 256 % 256) = v := by
  simp only [decU16]
  omega

theorem decI16_encI16 (v : Int) (h1 : -32768 ≤ v) (h2 : v ≤ 32767) :
    decI16 ((v % 65536).toNat % 256) ((v % 65536).toNat / 256 % 256) = v := by
  simp only [decI16, decU16]
  split <;> omega

theorem decU16List_flatMap (l : List Nat) :
    decU16List (l.flatMap encU16) = l.map (fun v => v % 65536) := by
  induction l with
  | nil => rfl
  | cons v rest ih =>
    simp only [List.flatMap_cons, encU16, List.cons_append, List.nil_append, decU16List,
      List.map_cons, ih, decU16]
    congr 1
    omega

theorem map_mod_of_lt (l : List Nat) (h : ∀ v ∈ l, v < 65536) :
    l.map (fun v => v % 65536) = l := by
  induction l with
  | nil => rfl
  | cons v rest ih =>
    simp only [List.map_cons, List.cons.injEq]
    exact ⟨Nat.mod_eq_of_lt (h v (by simp)), ih (fun u hu => h u (by simp [hu]))⟩

theorem flatMap_encU16_length (l : List Nat) : (l.flatMap encU16).length = 2 * l.length := by
  induction l with
  | nil => rfl
  | cons v rest ih => simp [encU16, ih]; omega

theorem flatten_length_uniform (data : List (List Nat)) (w : Nat)
    (h : ∀ row ∈ data, row.length = w) : data.flatten.length = data.length * w := by
  induction data with
  | nil => simp
  | cons row rest ih =>
    simp only [List.flatten_cons, List.length_append, List.length_cons,
      h row (by simp), ih (fun r hr => h r (by simp [hr]))]
    ring

theorem drop_append_add {α : Type} (l₁ l₂ : List α) (n : Nat) :
    (l₁ ++ l₂).drop (l₁.length + n) = l₂.drop n := by
  induction l₁ with
  | nil => simp
  | cons a rest ih => simp [Nat.succ_add, ih]

theorem reshape_flatten (data : List (List Nat)) (w : Nat)
    (h : ∀ row ∈ data, row.length = w) : reshape data.length w data.flatten = data := by
  induction data with
  | nil => rfl
  | cons row rest ih =>
    have hrow : row.length = w := h row (by simp)
    have htail := ih (fun r hr => h r (by simp [hr]))
    simp only [reshape, List.length_cons, List.range_succ_eq_map, List.map_cons,
      Nat.zero_mul, List.drop_zero, List.flatten_cons, List.map_map]
    congr 1
    · rw [← hrow, List.take_left]
    · conv_rhs => rw [← htail]
      simp only [reshape]
      apply List.map_congr_left
      intro i _
      simp only [Function.comp_apply]
      rw [show Nat.succ i * w = row.length + i * w by rw [hrow, Nat.succ_mul, Nat.add_comm], drop_append_add]

/-- C1: decoding the byte stream produced by `write` yields a grid with
identical resolution, origin, dimensions and cell values, for every grid whose
resolution fits u8, origin fits i16 and dimensions fit u16 (bit-identical
round-trip). -/
theorem claim_C1_round_trip (g : GeometryIndexed) (hwf : g.WF)
    (hres : g.resolution < 256)
    (hx1 : -32768 ≤ g.x) (hx2 : g.x ≤ 32767)
    (hy1 : -32768 ≤ g.y) (hy2 : g.y ≤ 32767)
    (hw : g.width < 65536) (hh : g.height < 65536) :
    GeometryIndexed.read g.write = Except.ok g := by
  obtain ⟨res, x, y, h, w, data⟩ := g
  obtain ⟨hlen, hrows⟩ := hwf
  simp only at hlen hrows hres hx1 hx2 hy1 hy2 hw hh
  have hvals : ∀ v ∈ data.flatten, v < 65536 := by
    intro v hv
    obtain ⟨row, hrow, hvrow⟩ := List.mem_flatten.mp hv
    exact (hrows row hrow).2 v hvrow
  have hplen : (data.flatten.flatMap encU16).length = w * h * 2 := by
    rw [flatMap_encU16_length, flatten_length_uniform data w (fun r hr => (hrows r hr).1), hlen]
    ring
  simp only [GeometryIndexed.write, encI16, encU16, variantIdBase, Nat.zero_mod,
    List.cons_append, List.nil_append, GeometryIndexed.read]
  rw [if_pos trivial, decU16_encU16 w hw, decU16_encU16 h hh, if_pos (le_of_eq hplen.symm)]
  rw [← hplen, List.take_length, decU16List_flatMap, map_mod_of_lt _ hvals]
  rw [decI16_encI16 x hx1 hx2, decI16_encI16 y hy1 hy2, Nat.mod_eq_of_lt hres]
  rw [← hlen, reshape_flatten data w (fun r hr => (hrows r hr).1)]

/-- Witness for C1 at a concrete grid. -/
theorem claim_C1_witness :
    GeometryIndexed.read (GeometryIndexed.write ⟨4, -1, 2, 1, 2, [[7, 65535]]⟩) =
      Except.ok ⟨4, -1, 2, 1, 2, [[7, 65535]]⟩ :=
  claim_C1_round_trip ⟨4, -1, 2, 1, 2, [[7, 65535]]⟩ ⟨rfl, by decide⟩ (by decide)
    (by decide) (by decide) (by decide) (by decide) (by decide) (by decide)

/-- C4: the concrete write/read scenario: starting from the empty grid with
resolution 4 and origin `(0,0)`, writing value 1 through the axis-aligned
rectangle from world `(0,0)` to `(8,8)` gives origin `(0,0)`, a 2×2 array of
ones; reading world rectangle `(0,0)-(4,4)` returns `[1]` and reading
`(8,8)-(12,12)` (fully outside) returns `[]`. -/
theorem claim_C4_concrete_scenario :
    let g0 : GeometryIndexed := ⟨4, 0, 0, 0, 0, []⟩
    let g1 := g0.setGeometry (Geometry.rect 0 0 8 8) 1
    g1.x = 0 ∧ g1.y = 0 ∧ g1.width = 2 ∧ g1.height = 2 ∧ g1.data = [[1, 1], [1, 1]] ∧
      g1.getRect 0 0 4 4 = [1] ∧ g1.getRect 8 8 12 12 = [] := by
  decide

/-- C7 counterexample: the claim quantifies over every byte stream whose first
byte differs from the expected variant id, but on the one-byte stream `[1]`
the code fails while unpacking the 10-byte header (`struct.error`), not with
the variant-id `ValueError`; so "fails with the FormatMismatch error" is wrong
for streams shorter than a header. -/
theorem claim_C7_counterexample :
    ([1] : List Nat).headD 0 ≠ variantIdBase ∧
      GeometryIndexed.read [1] ≠ Except.error ReadError.formatMismatch := by
  refine ⟨by decide, fun hcontra => ?_⟩
  simp [GeometryIndexed.read] at hcontra

/-- C7 amended: for every byte stream holding at least the 10-byte header,
a first byte different from the expected variant id makes `read` fail with
`FormatMismatch` (and return no grid); conversely decoding only proceeds past
the header when the first byte equals the variant id. The pure decoder
mutates no caller state. -/
theorem claim_C7_format_mismatch (bs : List Nat) :
    (10 ≤ bs.length → bs.headD 0 ≠ variantIdBase →
      GeometryIndexed.read bs = Except.error ReadError.formatMismatch) ∧
    (∀ g : GeometryIndexed, GeometryIndexed.read bs = Except.ok g →
      bs.headD 0 = variantIdBase) := by
  constructor
  · intro hlen hv
    rcases bs with _ | ⟨v, bs⟩; · simp at hlen
    rcases bs with _ | ⟨b1, bs⟩; · simp at hlen
    rcases bs with _ | ⟨b2, bs⟩; · simp at hlen
    rcases bs with _ | ⟨b3, bs⟩; · simp at hlen
    rcases bs with _ | ⟨b4, bs⟩; · simp at hlen
    rcases bs with _ | ⟨b5, bs⟩; · simp at hlen
    rcases bs with _ | ⟨b6, bs⟩; · simp at hlen
    rcases bs with _ | ⟨b7, bs⟩; · simp at hlen
    rcases bs with _ | ⟨b8, bs⟩; · simp at hlen
    rcases bs with _ | ⟨b9, bs⟩; · simp at hlen
    simp only [List.headD_cons] at hv
    simp only [GeometryIndexed.read]
    rw [if_neg hv]
  · intro g hok
    rcases bs with _ | ⟨v, bs⟩; · simp [GeometryIndexed.read] at hok
    rcases bs with _ | ⟨b1, bs⟩; · simp [GeometryIndexed.read] at hok
    rcases bs with _ | ⟨b2, bs⟩; · simp [GeometryIndexed.read] at hok
    rcases bs with _ | ⟨b3, bs⟩; · simp [GeometryIndexed.read] at hok
    rcases bs with _ | ⟨b4, bs⟩; · simp [GeometryIndexed.read] at hok
    rcases bs with _ | ⟨b5, bs⟩; · simp [GeometryIndexed.read] at hok
    rcases bs with _ | ⟨b6, bs⟩; · simp [GeometryIndexed.read] at hok
    rcases bs with _ | ⟨b7, bs⟩; · simp [GeometryIndexed.read] at hok
    rcases bs with _ | ⟨b8, bs⟩; · simp [GeometryIndexed.read] at hok
    rcases bs with _ | ⟨b9, bs⟩; · simp [GeometryIndexed.read] at hok
    by_cases hv : v = variantIdBase
    · simp [hv]
    · simp only [GeometryIndexed.read] at hok
      rw [if_neg hv] at hok
      exact absurd hok (by simp)

/-- Witness for the amended C7 at a concrete header whose variant byte is 5. -/
theorem claim_C7_witness :
    GeometryIndexed.read [5, 0, 0, 0, 0, 0, 0, 0, 0, 0] =
      Except.error ReadError.formatMismatch :=
  (claim_C7_format_mismatch [5, 0, 0, 0, 0, 0, 0, 0, 0, 0]).1 (by decide) (by decide)

theorem getD_append_add {α : Type} (l₁ l₂ : List α) (n : Nat) (d : α) :
    (l₁ ++ l₂).getD (l₁.length + n) d = l₂.getD n d := by
  induction l₁ with
  | nil => simp
  | cons a rest ih =>
    simp only [List.cons_append, List.length_cons, Nat.succ_add, List.getD_cons_succ]
    exact ih

theorem getD_append_left {α : Type} (l₁ l₂ : List α) (n : Nat) (d : α)
    (h : n < l₁.length) : (l₁ ++ l₂).getD n d = l₁.getD n d := by
  induction l₁ generalizing n with
  | nil => simp at h
  | cons a rest ih =>
    cases n with
    | zero => rfl
    | succ n => simpa using ih n (by simpa using Nat.lt_of_succ_lt_succ h)

theorem getD_flatten_uniform (data : List (List Nat)) (w : Nat)
    (hrows : ∀ row ∈ data, row.length = w) (i j : Nat)
    (hi : i < data.length) (hj : j < w) :
    data.flatten.getD (i * w + j) 0 = (data.getD i []).getD j 0 := by
  induction data generalizing i with
  | nil => simp at hi
  | cons row rest ih =>
    have hrow : row.length = w := hrows row (by simp)
    cases i with
    | zero =>
      simp only [List.flatten_cons, Nat.zero_mul, Nat.zero_add, List.getD_cons_zero]
      exact getD_append_left row rest.flatten j 0 (by omega)
    | succ i =>
      simp only [List.flatten_cons, List.getD_cons_succ]
      rw [show Nat.succ i * w + j = row.length + (i * w + j) by
        rw [hrow, Nat.succ_mul]; omega]
      rw [getD_append_add]
      exact ih (fun r hr => hrows r (by simp [hr])) i (by simpa using Nat.lt_of_succ_lt_succ hi)

theorem flatMap_encU16_getD (l : List Nat) (m : Nat) (hm : m < l.length) :
    (l.flatMap encU16).getD (m * 2) 0 = l.getD m 0 % 256 ∧
    (l.flatMap encU16).getD (m * 2 + 1) 0 = l.getD m 0 / 256 % 256 := by
  induction l generalizing m with
  | nil => simp at hm
  | cons v rest ih =>
    cases m with
    | zero => simp [encU16]
    | succ m =>
      simp only [List.flatMap_cons, encU16, List.cons_append, List.nil_append]
      rw [show Nat.succ m * 2 = m * 2 + 1 + 1 by omega]
      simp only [List.getD_cons_succ]
      exact ih m (by simpa using Nat.lt_of_succ_lt_succ hm)

theorem cell_lt_of_WF (g : GeometryIndexed) (hwf : g.WF) (i j : Nat) :
    g.cell i j < 65536 := by
  obtain ⟨hlen, hrows⟩ := hwf
  unfold GeometryIndexed.cell
  by_cases hi : i < g.data.length
  · have hmem : g.data.getD i [] ∈ g.data := by
      rw [List.getD_eq_getElem _ _ hi]
      exact List.getElem_mem hi
    obtain ⟨hrl, hvals⟩ := hrows _ hmem
    by_cases hj : j < (g.data.getD i []).length
    · refine hvals _ ?_
      rw [List.getD_eq_getElem _ _ hj]
      exact List.getElem_mem hj
    · rw [List.getD_eq_default _ _ (le_of_not_lt hj)]
      omega
  · rw [List.getD_eq_default _ _ (le_of_not_lt hi)]
    simp

theorem decU16_encU16_mod (v : Nat) : decU16 (v % 256) (v / 256 % 256) = v % 65536 := by
  simp only [decU16]
  omega

/-- C6: exact binary layout of `write`: little-endian variant id at offset 0,
resolution at 1, origin x as i16 at 2, origin y as i16 at 4, width as u16 at
6 (width precedes height: the numpy shape is reversed), height as u16 at 8,
then (after the empty base-format metadata) exactly `width*height*2` payload
bytes, the cell at row `i` column `j` (row 0 = the row at `origin_y`) encoded
little-endian at offset `10 + (i*width + j)*2`. -/
theorem claim_C6_binary_layout (g : GeometryIndexed) (hwf : g.WF)
    (hres : g.resolution < 256)
    (hx1 : -32768 ≤ g.x) (hx2 : g.x ≤ 32767)
    (hy1 : -32768 ≤ g.y) (hy2 : g.y ≤ 32767)
    (hw : g.width < 65536) (hh : g.height < 65536) :
    g.write.length = 10 + g.width * g.height * 2 ∧
    g.write.getD 0 0 = variantIdBase ∧
    g.write.getD 1 0 = g.resolution ∧
    decI16 (g.write.getD 2 0) (g.write.getD 3 0) = g.x ∧
    decI16 (g.write.getD 4 0) (g.write.getD 5 0) = g.y ∧
    decU16 (g.write.getD 6 0) (g.write.getD 7 0) = g.width ∧
    decU16 (g.write.getD 8 0) (g.write.getD 9 0) = g.height ∧
    ∀ i j : Nat, i < g.height → j < g.width →
      decU16 (g.write.getD (10 + (i * g.width + j) * 2) 0)
        (g.write.getD (10 + (i * g.width + j) * 2 + 1) 0) = g.cell i j := by
  obtain ⟨res, x, y, h, w, data⟩ := g
  obtain ⟨hlen, hrows⟩ := hwf
  simp only at hlen hrows hres hx1 hx2 hy1 hy2 hw hh
  have hrl : ∀ row ∈ data, row.length = w := fun r hr => (hrows r hr).1
  have hwrite : GeometryIndexed.write ⟨res, x, y, h, w, data⟩ =
      variantIdBase % 256 :: res % 256 ::
      (x % 65536).toNat % 256 :: (x % 65536).toNat / 256 % 256 ::
      (y % 65536).toNat % 256 :: (y % 65536).toNat / 256 % 256 ::
      w % 256 :: w / 256 % 256 :: h % 256 :: h / 256 % 256 ::
      data.flatten.flatMap encU16 := rfl
  have hstrip : ∀ m : Nat,
      (GeometryIndexed.write ⟨res, x, y, h, w, data⟩).getD (10 + m) 0 =
        (data.flatten.flatMap encU16).getD m 0 := by
    intro m
    rw [hwrite, show 10 + m = m + 1 + 1 + 1 + 1 + 1 + 1 + 1 + 1 + 1 + 1 by omega]
    simp only [List.getD_cons_succ]
  refine ⟨?_, rfl, Nat.mod_eq_of_lt hres, decI16_encI16 x hx1 hx2, decI16_encI16 y hy1 hy2,
    decU16_encU16 w hw, decU16_encU16 h hh, ?_⟩
  · simp only [GeometryIndexed.write, List.length_append, List.length_cons, List.length_nil,
      encI16, encU16]
    rw [flatMap_encU16_length, flatten_length_uniform data w hrl, hlen]
    ring
  · intro i j hi hj
    dsimp only at hi hj
    have hm : i * w + j < data.flatten.length := by
      rw [flatten_length_uniform data w hrl, hlen]
      have hstep : i * w + j < (i + 1) * w := by
        rw [Nat.succ_mul]
        omega
      exact lt_of_lt_of_le hstep (Nat.mul_le_mul_right w hi)
    rw [show 10 + (i * w + j) * 2 + 1 = 10 + ((i * w + j) * 2 + 1) by omega]
    rw [hstrip, hstrip]
    obtain ⟨h1, h2⟩ := flatMap_encU16_getD data.flatten (i * w + j) hm
    rw [h1, h2, decU16_encU16_mod, getD_flatten_uniform data w hrl i j (by omega) hj]
    exact Nat.mod_eq_of_lt (cell_lt_of_WF ⟨res, x, y, h, w, data⟩ ⟨hlen, hrows⟩ i j)

/-- Witness for C6 at a concrete grid. -/
theorem claim_C6_witness :
    let g0 : GeometryIndexed := ⟨7, -2, 3, 2, 1, [[9], [65535]]⟩
    g0.write.length = 10 + g0.width * g0.height * 2 ∧
    g0.write.getD 0 0 = variantIdBase ∧
    g0.write.getD 1 0 = g0.resolution ∧
    decI16 (g0.write.getD 2 0) (g0.write.getD 3 0) = g0.x ∧
    decI16 (g0.write.getD 4 0) (g0.write.getD 5 0) = g0.y ∧
    decU16 (g0.write.getD 6 0) (g0.write.getD 7 0) = g0.width ∧
    decU16 (g0.write.getD 8 0) (g0.write.getD 9 0) = g0.height ∧
    ∀ i j : Nat, i < g0.height → j < g0.width →
      decU16 (g0.write.getD (10 + (i * g0.width + j) * 2) 0)
        (g0.write.getD (10 + (i * g0.width + j) * 2 + 1) 0) = g0.cell i j :=
  claim_C6_binary_layout ⟨7, -2, 3, 2, 1, [[9], [65535]]⟩ ⟨rfl, by decide⟩ (by decide)
    (by decide) (by decide) (by decide) (by decide) (by decide) (by decide)

/-! Lemmas about `mkGrid`, the functional model of numpy array building. -/

theorem mkGrid_length {α : Type} (h w : Nat) (f : Nat → Nat → α) :
    (mkGrid h w f).length = h := by
  simp [mkGrid]

theorem mkGrid_getD {α : Type} (h w : Nat) (f : Nat → Nat → α) (i j : Nat) (d : α)
    (hi : i < h) (hj : j < w) : ((mkGrid h w f).getD i []).getD j d = f i j := by
  have h1 : (mkGrid h w f).getD i [] = (List.range w).map (f i) := by
    rw [mkGrid, List.getD_eq_getElem _ _ (by simpa using hi)]
    simp
  rw [h1, List.getD_eq_getElem _ _ (by simpa using hj)]
  simp

theorem WF_mkGrid (res : Nat) (x y : Int) (h w : Nat) (f : Nat → Nat → Nat)
    (hf : ∀ i j, f i j < 65536) :
    GeometryIndexed.WF ⟨res, x, y, h, w, mkGrid h w f⟩ := by
  constructor
  · simp [mkGrid]
  · intro row hrow
    simp only [mkGrid, List.mem_map] at hrow
    obtain ⟨i, hi, rfl⟩ := hrow
    constructor
    · simp
    · intro v hv
      simp only [List.mem_map] at hv
      obtain ⟨j, hj, rfl⟩ := hv
      exact hf i j

theorem map_range_getD (row : List Nat) (w : Nat) (hrow : row.length = w) :
    (List.range w).map (fun j => row.getD j 0) = row := by
  apply List.ext_getElem
  · simp [hrow]
  · intro n h1 h2
    simp only [List.getElem_map, List.getElem_range]
    rw [List.getD_eq_getElem _ _ h2]

theorem mkGrid_cell_data (data : List (List Nat)) (w : Nat)
    (hrows : ∀ r ∈ data, r.length = w) :
    mkGrid data.length w (fun i j => (data.getD i []).getD j 0) = data := by
  induction data with
  | nil => rfl
  | cons row rest ih =>
    have htail := ih (fun r hr => hrows r (by simp [hr]))
    simp only [mkGrid, List.length_cons, List.range_succ_eq_map, List.map_cons, List.map_map,
      List.getD_cons_zero]
    congr 1
    exact map_range_getD row w (hrows row (by simp))

theorem data_rows_nil (data : List (List Nat)) (h : ∀ r ∈ data, r.length = 0) :
    data = List.replicate data.length [] := by
  induction data with
  | nil => rfl
  | cons row rest ih =>
    simp only [List.length_cons, List.replicate_succ]
    congr 1
    · exact List.length_eq_zero.mp (h row (by simp))
    · exact ih (fun r hr => h r (by simp [hr]))

theorem mkGrid_zero_width {α : Type} (h : Nat) (f : Nat → Nat → α) :
    mkGrid h 0 f = List.replicate h [] := by
  simp [mkGrid, List.map_const']

/-! Structural lemmas about `fit_bounds`. -/

theorem fit_bounds_WF (g : GeometryIndexed) (hwf : g.WF) (minx miny maxx maxy : Int) :
    (g.fit_bounds minx miny maxx maxy).WF := by
  rw [GeometryIndexed.fit_bounds]
  split
  · exact WF_mkGrid g.resolution _ _ _ _ _ (fun i j => by
      split
      · exact cell_lt_of_WF g hwf _ _
      · omega)
  · exact WF_mkGrid g.resolution _ _ _ _ _ (fun i j => by omega)

theorem fit_bounds_covered_id (g : GeometryIndexed) (hwf : g.WF)
    (minx miny maxx maxy : Int) (hne : 0 < g.width * g.height)
    (h1 : g.x ≤ minx) (h2 : g.y ≤ miny)
    (h3 : maxx ≤ g.x + g.width) (h4 : maxy ≤ g.y + g.height) :
    g.fit_bounds minx miny maxx maxy = g := by
  obtain ⟨res, x, y, h, w, data⟩ := g
  obtain ⟨hlen, hrows⟩ := hwf
  dsimp only at hlen hrows hne h1 h2 h3 h4
  rw [GeometryIndexed.fit_bounds]
  rw [if_pos (by dsimp only; omega)]
  have hminx : min (⟨res, x, y, h, w, data⟩ : GeometryIndexed).x minx = x := by
    dsimp only; omega
  have hminy : min (⟨res, x, y, h, w, data⟩ : GeometryIndexed).y miny = y := by
    dsimp only; omega
  have hmaxx : max ((⟨res, x, y, h, w, data⟩ : GeometryIndexed).x +
      (⟨res, x, y, h, w, data⟩ : GeometryIndexed).width) maxx = x + w := by
    dsimp only; omega
  have hmaxy : max ((⟨res, x, y, h, w, data⟩ : GeometryIndexed).y +
      (⟨res, x, y, h, w, data⟩ : GeometryIndexed).height) maxy = y + h := by
    dsimp only; omega
  simp only [hminx, hminy, hmaxx, hmaxy]
  have hh : (y + (h : Int) - y).toNat = h := by omega
  have hww : (x + (w : Int) - x).toNat = w := by omega
  have hdx : ((⟨res, x, y, h, w, data⟩ : GeometryIndexed).x - x).toNat = 0 := by
    dsimp only; omega
  have hdy : ((⟨res, x, y, h, w, data⟩ : GeometryIndexed).y - y).toNat = 0 := by
    dsimp only; omega
  simp only [hh, hww, hdx, hdy, GeometryIndexed.mk.injEq]
  refine ⟨trivial, trivial, trivial, trivial, trivial, ?_⟩
  have hcells : ∀ i j : Nat,
      (if 0 ≤ i ∧ i < 0 + (⟨res, x, y, h, w, data⟩ : GeometryIndexed).height ∧
          0 ≤ j ∧ j < 0 + (⟨res, x, y, h, w, data⟩ : GeometryIndexed).width then
        (⟨res, x, y, h, w, data⟩ : GeometryIndexed).cell (i - 0) (j - 0)
      else 0) = (if i < h ∧ j < w then (data.getD i []).getD j 0 else 0) := by
    intro i j
    dsimp only
    by_cases hcond : i < h ∧ j < w
    · rw [if_pos (show 0 ≤ i ∧ i < 0 + h ∧ 0 ≤ j ∧ j < 0 + w by omega), if_pos hcond]
      rfl
    · rw [if_neg (show ¬(0 ≤ i ∧ i < 0 + h ∧ 0 ≤ j ∧ j < 0 + w) by omega), if_neg hcond]
  calc mkGrid h w _ = mkGrid h w (fun i j => if i < h ∧ j < w then (data.getD i []).getD j 0 else 0) := by
        unfold mkGrid
        apply List.map_congr_left
        intro i _
        apply List.map_congr_left
        intro j _
        dsimp only
        exact hcells i j
    _ = mkGrid h w (fun i j => (data.getD i []).getD j 0) := by
        unfold mkGrid
        apply List.map_congr_left
        intro i hi
        apply List.map_congr_left
        intro j hj
        dsimp only
        rw [if_pos ⟨by simpa using hi, by simpa using hj⟩]
    _ = data := by
        conv_lhs => rw [show h = data.length from hlen.symm]
        exact mkGrid_cell_data data w (fun r hr => (hrows r hr).1)

theorem fit_bounds_empty_id (g : GeometryIndexed) (hwf : g.WF)
    (minx miny maxx maxy : Int) (hempty : g.width * g.height = 0)
    (hx : g.x = minx) (hy : g.y = miny)
    (hhh : (g.height : Int) = maxy - miny) (hww : (g.width : Int) = maxx - minx) :
    g.fit_bounds minx miny maxx maxy = g := by
  obtain ⟨res, x, y, h, w, data⟩ := g
  obtain ⟨hlen, hrows⟩ := hwf
  dsimp only at hlen hrows hempty hx hy hhh hww
  rw [GeometryIndexed.fit_bounds, if_neg (by dsimp only; omega)]
  have hh2 : (maxy - miny).toNat = h := by omega
  have hw2 : (maxx - minx).toNat = w := by omega
  simp only [hh2, hw2, GeometryIndexed.mk.injEq]
  refine ⟨trivial, hx.symm, hy.symm, trivial, trivial, ?_⟩
  rcases Nat.mul_eq_zero.mp hempty with hw0 | hh0
  · rw [hw0, mkGrid_zero_width]
    rw [hw0] at hrows
    have := data_rows_nil data (fun r hr => (hrows r hr).1)
    rw [hlen] at this
    exact this.symm
  · rw [hh0] at hlen
    rw [List.length_eq_zero.mp hlen, hh0]
    rfl

/-- C9: when the cell array has size zero (width = 0 or height = 0) and the
requested bounds are proper, `fit_bounds` adopts exactly the requested origin
and shape, ignoring the previous origin entirely. -/
theorem claim_C9_empty_fit_bounds (g : GeometryIndexed) (minx miny maxx maxy : Int)
    (hempty : g.width * g.height = 0) (hx : minx ≤ maxx) (hy : miny ≤ maxy) :
    (g.fit_bounds minx miny maxx maxy).x = minx ∧
    (g.fit_bounds minx miny maxx maxy).y = miny ∧
    ((g.fit_bounds minx miny maxx maxy).width : Int) = maxx - minx ∧
    ((g.fit_bounds minx miny maxx maxy).height : Int) = maxy - miny := by
  rw [GeometryIndexed.fit_bounds, if_neg (by omega)]
  refine ⟨rfl, rfl, by dsimp only; omega, by dsimp only; omega⟩

/-- Witness for C9: a 3×0 grid at origin (5, 7) adopts exactly the requested
bounds, forgetting the old origin. -/
theorem claim_C9_witness :
    let g0 : GeometryIndexed := ⟨1, 5, 7, 0, 3, []⟩
    (g0.fit_bounds 1 2 4 6).x = 1 ∧ (g0.fit_bounds 1 2 4 6).y = 2 ∧
    ((g0.fit_bounds 1 2 4 6).width : Int) = 4 - 1 ∧
    ((g0.fit_bounds 1 2 4 6).height : Int) = 6 - 2 :=
  claim_C9_empty_fit_bounds ⟨1, 5, 7, 0, 3, []⟩ 1 2 4 6 (by decide) (by decide) (by decide)

/-- C2 counterexample: the claimed extent formula
`[min(existing_x, minx), ...)` fails for the empty 0×0 grid: growing the
empty grid at origin (0,0) to bounds (1,0)-(2,2) yields origin x = 1, not
`min(0, 1) = 0` — the empty branch of `fit_bounds` ignores the old origin. -/
theorem claim_C2_counterexample :
    let g0 : GeometryIndexed := ⟨1, 0, 0, 0, 0, []⟩
    (g0.fit_bounds 1 0 2 2).x ≠ min g0.x 1 := by decide

/-- C2 amended: restricted to grids with a nonzero-size array (the behaviour
on size-zero arrays is the separate C9): `fit_bounds` produces the union of
the old and requested extents, preserves every previously stored cell at its
world position, zero-fills all newly covered cells, and is a no-op on the
observable state when the requested bounds are already covered. -/
theorem claim_C2_fit_bounds_growth (g : GeometryIndexed) (hwf : g.WF)
    (minx miny maxx maxy : Int) (hne : 0 < g.width * g.height) :
    let g' := g.fit_bounds minx miny maxx maxy
    (g'.x = min g.x minx ∧ g'.y = min g.y miny ∧
     ((g'.x + g'.width : Int) = max (g.x + g.width) maxx) ∧
     ((g'.y + g'.height : Int) = max (g.y + g.height) maxy)) ∧
    (∀ wx wy : Int, g.x ≤ wx → wx < g.x + g.width → g.y ≤ wy → wy < g.y + g.height →
      g'.cell (wy - g'.y).toNat (wx - g'.x).toNat = g.cell (wy - g.y).toNat (wx - g.x).toNat) ∧
    (∀ wx wy : Int, g'.x ≤ wx → wx < g'.x + g'.width → g'.y ≤ wy → wy < g'.y + g'.height →
      ¬(g.x ≤ wx ∧ wx < g.x + g.width ∧ g.y ≤ wy ∧ wy < g.y + g.height) →
      g'.cell (wy - g'.y).toNat (wx - g'.x).toNat = 0) ∧
    ((g.x ≤ minx ∧ g.y ≤ miny ∧ maxx ≤ g.x + g.width ∧ maxy ≤ g.y + g.height) → g' = g) := by
  obtain ⟨res, x, y, h, w, data⟩ := g
  obtain ⟨hlen, hrows⟩ := hwf
  dsimp only at hlen hrows hne
  intro g'
  have hx' : g'.x = min x minx := by
    show (GeometryIndexed.fit_bounds _ _ _ _ _).x = _
    rw [GeometryIndexed.fit_bounds, if_pos (by dsimp only; omega)]
  have hy' : g'.y = min y miny := by
    show (GeometryIndexed.fit_bounds _ _ _ _ _).y = _
    rw [GeometryIndexed.fit_bounds, if_pos (by dsimp only; omega)]
  have hw' : g'.width = (max (x + w) maxx - min x minx).toNat := by
    show (GeometryIndexed.fit_bounds _ _ _ _ _).width = _
    rw [GeometryIndexed.fit_bounds, if_pos (by dsimp only; omega)]
  have hh' : g'.height = (max (y + h) maxy - min y miny).toNat := by
    show (GeometryIndexed.fit_bounds _ _ _ _ _).height = _
    rw [GeometryIndexed.fit_bounds, if_pos (by dsimp only; omega)]
  have hcell : ∀ i j : Nat, i < g'.height → j < g'.width →
      g'.cell i j = (if (y - min y miny).toNat ≤ i ∧ i < (y - min y miny).toNat + h ∧
          (x - min x minx).toNat ≤ j ∧ j < (x - min x minx).toNat + w then
        (data.getD (i - (y - min y miny).toNat) []).getD (j - (x - min x minx).toNat) 0
      else 0) := by
    intro i j hi hj
    show (GeometryIndexed.cell _ i j) = _
    rw [GeometryIndexed.cell]
    show ((GeometryIndexed.fit_bounds _ _ _ _ _).data.getD i []).getD j 0 = _
    rw [GeometryIndexed.fit_bounds, if_pos (by dsimp only; omega)]
    rw [hh'] at hi
    rw [hw'] at hj
    exact mkGrid_getD _ _ _ i j 0 hi hj
  refine ⟨⟨hx', hy', by rw [hx', hw']; dsimp only; omega, by rw [hy', hh']; dsimp only; omega⟩,
    ?_, ?_, ?_⟩
  · intro wx wy hwx1 hwx2 hwy1 hwy2
    dsimp only at hwx1 hwx2 hwy1 hwy2
    rw [hcell _ _ (by rw [hh', hy']; omega) (by rw [hw', hx']; omega)]
    rw [if_pos (by rw [hy', hx']; omega)]
    have hiEq : (wy - g'.y).toNat - (y - y ⊓ miny).toNat = (wy - y).toNat := by
      rw [hy']; omega
    have hjEq : (wx - g'.x).toNat - (x - x ⊓ minx).toNat = (wx - x).toNat := by
      rw [hx']; omega
    rw [hiEq, hjEq]
    rfl
  · intro wx wy hwx1 hwx2 hwy1 hwy2 hout
    dsimp only at hout
    rw [hx'] at hwx1
    rw [hy'] at hwy1
    rw [hw', hx'] at hwx2
    rw [hh', hy'] at hwy2
    rw [hcell _ _ (by rw [hh', hy']; omega) (by rw [hw', hx']; omega)]
    rw [if_neg (by rw [hy', hx']; omega)]
  · intro hc
    dsimp only at hc
    obtain ⟨hc1, hc2, hc3, hc4⟩ := hc
    exact fit_bounds_covered_id _ ⟨hlen, hrows⟩ _ _ _ _ (by dsimp only; omega)
      hc1 hc2 hc3 hc4

/-- Witness for the amended C2 at a concrete nonempty grid. -/
theorem claim_C2_witness :
    let g0 : GeometryIndexed := ⟨1, 0, 0, 1, 1, [[5]]⟩
    let g' := g0.fit_bounds 0 0 2 2
    (g'.x = min g0.x 0 ∧ g'.y = min g0.y 0 ∧
     ((g'.x + g'.width : Int) = max (g0.x + g0.width) 2) ∧
     ((g'.y + g'.height : Int) = max (g0.y + g0.height) 2)) ∧
    (∀ wx wy : Int, g0.x ≤ wx → wx < g0.x + g0.width → g0.y ≤ wy → wy < g0.y + g0.height →
      g'.cell (wy - g'.y).toNat (wx - g'.x).toNat = g0.cell (wy - g0.y).toNat (wx - g0.x).toNat) ∧
    (∀ wx wy : Int, g'.x ≤ wx → wx < g'.x + g'.width → g'.y ≤ wy → wy < g'.y + g'.height →
      ¬(g0.x ≤ wx ∧ wx < g0.x + g0.width ∧ g0.y ≤ wy ∧ wy < g0.y + g0.height) →
      g'.cell (wy - g'.y).toNat (wx - g'.x).toNat = 0) ∧
    ((g0.x ≤ 0 ∧ g0.y ≤ 0 ∧ (2 : Int) ≤ g0.x + g0.width ∧ (2 : Int) ≤ g0.y + g0.height) →
      g' = g0) :=
  claim_C2_fit_bounds_growth ⟨1, 0, 0, 1, 1, [[5]]⟩ ⟨rfl, by decide⟩ 0 0 2 2 (by decide)

/-! Floor/ceil facts for cell-aligned and strictly interior coordinates. -/

theorem qfloorRes_intMul (a : Int) (res : Nat) (hres : 0 < res) :
    qfloorRes ((a * res : Int) : ℚ) res = a := by
  rw [qfloorRes_eq_floor]
  have hq : ((a * res : Int) : ℚ) / (res : ℚ) = (a : ℚ) := by
    push_cast
    field_simp
  rw [hq, Int.floor_intCast]

theorem qceilRes_intMul (a : Int) (res : Nat) (hres : 0 < res) :
    qceilRes ((a * res : Int) : ℚ) res = a := by
  rw [qceilRes_eq_ceil]
  have hq : ((a * res : Int) : ℚ) / (res : ℚ) = (a : ℚ) := by
    push_cast
    field_simp
  rw [hq, Int.ceil_intCast]

theorem qfloorRes_of_inside (q : ℚ) (k : Int) (res : Nat) (hres : 0 < res)
    (h1 : ((k * res : Int) : ℚ) < q) (h2 : q < (((k + 1) * res : Int) : ℚ)) :
    qfloorRes q res = k ∧ qceilRes q res = k + 1 := by
  have hresQ : (0 : ℚ) < (res : ℚ) := by exact_mod_cast hres
  have hk1 : (k : ℚ) < q / (res : ℚ) := by
    rw [lt_div_iff₀ hresQ]
    push_cast at h1
    linarith
  have hk2 : q / (res : ℚ) < (k : ℚ) + 1 := by
    rw [div_lt_iff₀ hresQ]
    push_cast at h2
    linarith
  constructor
  · rw [qfloorRes_eq_floor]
    exact Int.floor_eq_iff.mpr ⟨le_of_lt hk1, hk2⟩
  · rw [qceilRes_eq_ceil]
    refine Int.ceil_eq_iff.mpr ⟨by push_cast; linarith, by push_cast; linarith⟩

/-! Pointwise description of the rasterization mask. -/

theorem get_geometry_cells_none (g : GeometryIndexed) (geom : Geometry) :
    g.get_geometry_cells geom none =
      g.get_geometry_cells geom (some (g.geometryBounds geom)) := rfl

theorem get_geometry_cells_spec (g : GeometryIndexed) (geom : Geometry)
    (b : Int × Int × Int × Int) (i j : Nat) (hi : i < g.height) (hj : j < g.width) :
    maskGet (g.get_geometry_cells geom (some b)) i j =
      (decide (max b.2.1 g.y ≤ g.y + i ∧ ((g.y + i : Int) < min b.2.2.2 (g.y + g.height)) ∧
          max b.1 g.x ≤ g.x + j ∧ ((g.x + j : Int) < min b.2.2.1 (g.x + g.width))) &&
        geom.intersectsBox ((g.x + j) * g.resolution) ((g.y + i) * g.resolution) g.resolution) := by
  simp only [GeometryIndexed.get_geometry_cells, Option.getD_some, maskGet]
  exact mkGrid_getD _ _ _ i j false hi hj

theorem maskGet_oob (h w : Nat) (f : Nat → Nat → Bool) (i j : Nat)
    (hout : ¬(i < h ∧ j < w)) : maskGet (mkGrid h w f) i j = false := by
  unfold maskGet
  by_cases hi : i < h
  · have hrow : (mkGrid h w f).getD i [] = (List.range w).map (f i) := by
      rw [mkGrid, List.getD_eq_getElem _ _ (by simpa using hi)]
      simp
    rw [hrow, List.getD_eq_default _ _
      (by simp only [List.length_map, List.length_range]; omega)]
  · rw [show (mkGrid h w f).getD i [] = [] from
      List.getD_eq_default _ _ (by rw [mkGrid_length]; omega)]
    rfl

theorem maskGet_cells_oob (g : GeometryIndexed) (geom : Geometry)
    (bopt : Option (Int × Int × Int × Int)) (i j : Nat)
    (hout : ¬(i < g.height ∧ j < g.width)) :
    maskGet (g.get_geometry_cells geom bopt) i j = false := by
  simp only [GeometryIndexed.get_geometry_cells]
  exact maskGet_oob _ _ _ i j hout

theorem maskSelect_eq_nil (data : List (List Nat)) (mask : List (List Bool))
    (h : ∀ i j, maskGet mask i j = false) : maskSelect data mask = [] := by
  induction data generalizing mask with
  | nil => rfl
  | cons row rest ih =>
    cases mask with
    | nil => rfl
    | cons mrow mrest =>
      simp only [maskSelect, List.zipWith_cons_cons, List.flatten_cons]
      have hmrow : ∀ bb ∈ mrow, bb = false := by
        intro bb hbb
        obtain ⟨j, hj, rfl⟩ := List.mem_iff_getElem.mp hbb
        have := h 0 j
        simp only [maskGet, List.getD_cons_zero] at this
        rwa [List.getD_eq_getElem _ _ hj] at this
      have hrow : (row.zip mrow).filterMap (fun p => if p.2 then some p.1 else none) = [] := by
        rw [List.filterMap_eq_nil_iff]
        intro p hp
        rw [hmrow p.2 (List.of_mem_zip hp).2]
        rfl
      rw [hrow, List.nil_append]
      have hrest : ∀ i j, maskGet mrest i j = false := by
        intro i j
        have := h (i + 1) j
        simpa only [maskGet, List.getD_cons_succ] using this
      have := ih mrest hrest
      simpa only [maskSelect] using this

theorem rect_intersectsBox_of_mem (a b c d cx cy : Int) (res : Nat)
    (h1 : a ≤ cx) (h2 : cx < c) (h3 : b ≤ cy) (h4 : cy < d) :
    (Geometry.rect ((a * res : Int) : ℚ) ((b * res : Int) : ℚ)
      ((c * res : Int) : ℚ) ((d * res : Int) : ℚ)).intersectsBox
        (cx * res) (cy * res) res = true := by
  have hres0 : (0 : Int) ≤ (res : Int) := by omega
  simp only [Geometry.intersectsBox, Bool.and_eq_true, decide_eq_true_eq]
  refine ⟨⟨⟨?_, ?_⟩, ?_⟩, ?_⟩
  · exact_mod_cast le_trans (mul_le_mul_of_nonneg_right h1 hres0)
      (le_add_of_nonneg_right hres0)
  · exact_mod_cast mul_le_mul_of_nonneg_right (le_of_lt h2) hres0
  · exact_mod_cast le_trans (mul_le_mul_of_nonneg_right h3 hres0)
      (le_add_of_nonneg_right hres0)
  · exact_mod_cast mul_le_mul_of_nonneg_right (le_of_lt h4) hres0

theorem point_intersectsBox_of_inside (px py : ℚ) (k m : Int) (res : Nat)
    (hx1 : ((k * res : Int) : ℚ) < px) (hx2 : px < (((k + 1) * res : Int) : ℚ))
    (hy1 : ((m * res : Int) : ℚ) < py) (hy2 : py < (((m + 1) * res : Int) : ℚ)) :
    (Geometry.point px py).intersectsBox (k * res) (m * res) res = true := by
  simp only [Geometry.intersectsBox, Bool.and_eq_true, decide_eq_true_eq]
  refine ⟨⟨⟨le_of_lt hx1, ?_⟩, le_of_lt hy1⟩, ?_⟩
  · push_cast at hx2 ⊢
    linarith
  · push_cast at hy2 ⊢
    linarith

/-- C3: rasterization exactness of `get_geometry_cells`. A cell-aligned
rectangle whose cells lie within the current extent marks exactly the cells it
covers; a point strictly inside one in-extent cell marks exactly that cell; an
empty geometry (with any candidate bounds) marks no cells. -/
theorem claim_C3_rasterization_exactness :
    (∀ (g : GeometryIndexed) (a b c d : Int), 0 < g.resolution →
      g.x ≤ a → c ≤ g.x + g.width → g.y ≤ b → d ≤ g.y + g.height →
      ∀ i j : Nat, i < g.height → j < g.width →
      (maskGet (g.get_geometry_cells (Geometry.rect ((a * g.resolution : Int) : ℚ)
        ((b * g.resolution : Int) : ℚ) ((c * g.resolution : Int) : ℚ)
        ((d * g.resolution : Int) : ℚ)) none) i j = true ↔
        (a ≤ g.x + j ∧ ((g.x + j : Int) < c) ∧ b ≤ g.y + i ∧ ((g.y + i : Int) < d)))) ∧
    (∀ (g : GeometryIndexed) (px py : ℚ) (k m : Int), 0 < g.resolution →
      ((k * g.resolution : Int) : ℚ) < px → px < (((k + 1) * g.resolution : Int) : ℚ) →
      ((m * g.resolution : Int) : ℚ) < py → py < (((m + 1) * g.resolution : Int) : ℚ) →
      g.x ≤ k → k < g.x + g.width → g.y ≤ m → m < g.y + g.height →
      ∀ i j : Nat, i < g.height → j < g.width →
      (maskGet (g.get_geometry_cells (Geometry.point px py) none) i j = true ↔
        ((g.y + i : Int) = m ∧ (g.x + j : Int) = k))) ∧
    (∀ (g : GeometryIndexed) (bopt : Option (Int × Int × Int × Int)) (i j : Nat),
      maskGet (g.get_geometry_cells Geometry.emptyGeom bopt) i j = false) := by
  refine ⟨?_, ?_, ?_⟩
  · intro g a b c d hres ha hc hb hd i j hi hj
    have hbounds : g.geometryBounds (Geometry.rect ((a * g.resolution : Int) : ℚ)
        ((b * g.resolution : Int) : ℚ) ((c * g.resolution : Int) : ℚ)
        ((d * g.resolution : Int) : ℚ)) = (a, b, c, d) := by
      simp only [GeometryIndexed.geometryBounds, Geometry.boundsQ]
      rw [qfloorRes_intMul a _ hres, qfloorRes_intMul b _ hres,
        qceilRes_intMul c _ hres, qceilRes_intMul d _ hres]
    rw [get_geometry_cells_none, hbounds, get_geometry_cells_spec _ _ _ i j hi hj]
    dsimp only
    constructor
    · intro htrue
      rw [Bool.and_eq_true] at htrue
      have hrange := of_decide_eq_true htrue.1
      omega
    · intro hf
      rw [Bool.and_eq_true]
      refine ⟨decide_eq_true (by omega), ?_⟩
      exact rect_intersectsBox_of_mem a b c d (g.x + j) (g.y + i) g.resolution
        (by omega) (by omega) (by omega) (by omega)
  · intro g px py k m hres hx1 hx2 hy1 hy2 hkx1 hkx2 hmy1 hmy2 i j hi hj
    obtain ⟨hfx, hcx⟩ := qfloorRes_of_inside px k g.resolution hres hx1 hx2
    obtain ⟨hfy, hcy⟩ := qfloorRes_of_inside py m g.resolution hres hy1 hy2
    have hbounds : g.geometryBounds (Geometry.point px py) = (k, m, k + 1, m + 1) := by
      simp only [GeometryIndexed.geometryBounds, Geometry.boundsQ]
      rw [hfx, hfy, hcx, hcy]
    rw [get_geometry_cells_none, hbounds, get_geometry_cells_spec _ _ _ i j hi hj]
    dsimp only
    constructor
    · intro htrue
      rw [Bool.and_eq_true] at htrue
      have hrange := of_decide_eq_true htrue.1
      omega
    · intro hf
      rw [Bool.and_eq_true]
      refine ⟨decide_eq_true (by omega), ?_⟩
      rw [show g.x + (j : Int) = k from hf.2, show g.y + (i : Int) = m from hf.1]
      exact point_intersectsBox_of_inside px py k m g.resolution hx1 hx2 hy1 hy2
  · intro g bopt i j
    by_cases hin : i < g.height ∧ j < g.width
    · cases bopt with
      | none =>
        rw [get_geometry_cells_none, get_geometry_cells_spec _ _ _ i j hin.1 hin.2]
        simp [Geometry.intersectsBox]
      | some b =>
        rw [get_geometry_cells_spec _ _ _ i j hin.1 hin.2]
        simp [Geometry.intersectsBox]
    · exact maskGet_cells_oob g Geometry.emptyGeom bopt i j hin

/-- Witness for C3: the three parts instantiated on a concrete 2×2 grid with
resolution 2: an aligned 1×1-cell rectangle, a point strictly inside cell
(0,0), and the empty geometry. -/
theorem claim_C3_witness :
    (maskGet ((⟨2, 0, 0, 2, 2, [[0, 0], [0, 0]]⟩ : GeometryIndexed).get_geometry_cells
        (Geometry.rect ((0 * 2 : Int) : ℚ) ((0 * 2 : Int) : ℚ) ((1 * 2 : Int) : ℚ)
          ((1 * 2 : Int) : ℚ)) none) 0 0 = true ↔
      ((0 : Int) ≤ 0 + (0 : Nat) ∧ ((0 : Int) + (0 : Nat) < 1) ∧ (0 : Int) ≤ 0 + (0 : Nat) ∧
        ((0 : Int) + (0 : Nat) < 1))) ∧
    (maskGet ((⟨2, 0, 0, 2, 2, [[0, 0], [0, 0]]⟩ : GeometryIndexed).get_geometry_cells
        (Geometry.point 1 1) none) 1 1 = true ↔
      ((0 : Int) + (1 : Nat) = 0 ∧ (0 : Int) + (1 : Nat) = 0)) ∧
    maskGet ((⟨2, 0, 0, 2, 2, [[0, 0], [0, 0]]⟩ : GeometryIndexed).get_geometry_cells
      Geometry.emptyGeom none) 0 1 = false :=
  ⟨claim_C3_rasterization_exactness.1 ⟨2, 0, 0, 2, 2, [[0, 0], [0, 0]]⟩ 0 0 1 1 (by decide)
      (by decide) (by decide) (by decide) (by decide) 0 0 (by decide) (by decide),
   claim_C3_rasterization_exactness.2.1 ⟨2, 0, 0, 2, 2, [[0, 0], [0, 0]]⟩ 1 1 0 0 (by decide)
      (by decide) (by decide) (by decide) (by decide) (by decide) (by decide) (by decide)
      (by decide) 1 1 (by decide) (by decide),
   claim_C3_rasterization_exactness.2.2 ⟨2, 0, 0, 2, 2, [[0, 0], [0, 0]]⟩ none 0 1⟩

/-- C10: a point geometry both of whose coordinates are exact integer
multiples of the resolution lies on a cell corner: its cell-space envelope is
degenerate (floor equals ceil in both axes), `get_geometry_cells` marks no
cell, and a geometry read returns the empty sequence. -/
theorem claim_C10_corner_point (g : GeometryIndexed) (hres : 0 < g.resolution) (k m : Int) :
    g.geometryBounds (Geometry.point ((k * g.resolution : Int) : ℚ)
      ((m * g.resolution : Int) : ℚ)) = (k, m, k, m) ∧
    (∀ i j : Nat, maskGet (g.get_geometry_cells (Geometry.point ((k * g.resolution : Int) : ℚ)
      ((m * g.resolution : Int) : ℚ)) none) i j = false) ∧
    g.getGeometry (Geometry.point ((k * g.resolution : Int) : ℚ)
      ((m * g.resolution : Int) : ℚ)) = [] := by
  have hbounds : g.geometryBounds (Geometry.point ((k * g.resolution : Int) : ℚ)
      ((m * g.resolution : Int) : ℚ)) = (k, m, k, m) := by
    simp only [GeometryIndexed.geometryBounds, Geometry.boundsQ]
    rw [qfloorRes_intMul k _ hres, qfloorRes_intMul m _ hres,
      qceilRes_intMul k _ hres, qceilRes_intMul m _ hres]
  have hmask : ∀ i j : Nat, maskGet (g.get_geometry_cells
      (Geometry.point ((k * g.resolution : Int) : ℚ)
        ((m * g.resolution : Int) : ℚ)) none) i j = false := by
    intro i j
    by_cases hin : i < g.height ∧ j < g.width
    · rw [get_geometry_cells_none, hbounds, get_geometry_cells_spec _ _ _ i j hin.1 hin.2]
      dsimp only
      have hcond : ¬(max m g.y ≤ g.y + i ∧ ((g.y + i : Int) < min m (g.y + g.height)) ∧
          max k g.x ≤ g.x + j ∧ ((g.x + j : Int) < min k (g.x + g.width))) := by omega
      rw [decide_eq_false hcond, Bool.false_and]
    · exact maskGet_cells_oob g _ none i j hin
  refine ⟨hbounds, hmask, ?_⟩
  unfold GeometryIndexed.getGeometry
  refine maskSelect_eq_nil _ _ (fun i j => ?_)
  rw [← get_geometry_cells_none]
  exact hmask i j

/-- Witness for C10 at a concrete grid and corner point. -/
theorem claim_C10_witness :
    let g0 : GeometryIndexed := ⟨4, 0, 0, 2, 2, [[3, 3], [3, 3]]⟩
    g0.geometryBounds (Geometry.point ((1 * g0.resolution : Int) : ℚ)
      ((1 * g0.resolution : Int) : ℚ)) = (1, 1, 1, 1) ∧
    (∀ i j : Nat, maskGet (g0.get_geometry_cells (Geometry.point
      ((1 * g0.resolution : Int) : ℚ) ((1 * g0.resolution : Int) : ℚ)) none) i j = false) ∧
    g0.getGeometry (Geometry.point ((1 * g0.resolution : Int) : ℚ)
      ((1 * g0.resolution : Int) : ℚ)) = [] :=
  claim_C10_corner_point ⟨4, 0, 0, 2, 2, [[3, 3], [3, 3]]⟩ (by decide) 1 1

/-! Support lemmas for write idempotence. -/

theorem fit_bounds_resolution (g : GeometryIndexed) (a b c d : Int) :
    (g.fit_bounds a b c d).resolution = g.resolution := by
  rw [GeometryIndexed.fit_bounds]
  split <;> rfl

theorem fit_bounds_extent (g : GeometryIndexed) (minx miny maxx maxy : Int)
    (hm1 : minx ≤ maxx) (hm2 : miny ≤ maxy) :
    (g.fit_bounds minx miny maxx maxy).x ≤ minx ∧
    (g.fit_bounds minx miny maxx maxy).y ≤ miny ∧
    maxx ≤ (g.fit_bounds minx miny maxx maxy).x + (g.fit_bounds minx miny maxx maxy).width ∧
    maxy ≤ (g.fit_bounds minx miny maxx maxy).y + (g.fit_bounds minx miny maxx maxy).height := by
  rw [GeometryIndexed.fit_bounds]
  split <;> refine ⟨?_, ?_, ?_, ?_⟩ <;> dsimp only <;> omega

theorem fit_bounds_exact_of_size_zero (g : GeometryIndexed) (minx miny maxx maxy : Int)
    (hm1 : minx ≤ maxx) (hm2 : miny ≤ maxy)
    (h0 : (g.fit_bounds minx miny maxx maxy).width * (g.fit_bounds minx miny maxx maxy).height = 0) :
    (g.fit_bounds minx miny maxx maxy).x = minx ∧
    (g.fit_bounds minx miny maxx maxy).y = miny ∧
    ((g.fit_bounds minx miny maxx maxy).height : Int) = maxy - miny ∧
    ((g.fit_bounds minx miny maxx maxy).width : Int) = maxx - minx := by
  by_cases hne : 0 < g.width * g.height
  · exfalso
    have hw0 : 0 < g.width := by
      rcases Nat.eq_zero_or_pos g.width with h | h
      · rw [h] at hne; simp at hne
      · exact h
    have hh0 : 0 < g.height := by
      rcases Nat.eq_zero_or_pos g.height with h | h
      · rw [h] at hne; simp at hne
      · exact h
    rw [GeometryIndexed.fit_bounds, if_pos hne] at h0
    dsimp only at h0
    rcases Nat.mul_eq_zero.mp h0 with hz | hz <;> omega
  · rw [GeometryIndexed.fit_bounds, if_neg hne] at h0 ⊢
    refine ⟨rfl, rfl, by dsimp only; omega, by dsimp only; omega⟩

theorem geometry_bounds_le (g : GeometryIndexed) (geom : Geometry) (hgeom : geom.WF) :
    (g.geometryBounds geom).1 ≤ (g.geometryBounds geom).2.2.1 ∧
    (g.geometryBounds geom).2.1 ≤ (g.geometryBounds geom).2.2.2 := by
  have key : ∀ q1 q2 : ℚ, q1 ≤ q2 →
      qfloorRes q1 g.resolution ≤ qceilRes q2 g.resolution := by
    intro q1 q2 hq
    rw [qfloorRes_eq_floor, qceilRes_eq_ceil]
    rcases Nat.eq_zero_or_pos g.resolution with h0 | hpos
    · simp [h0]
    · have hc : (0 : ℚ) < (g.resolution : ℚ) := by exact_mod_cast hpos
      have hdivle : q1 / (g.resolution : ℚ) ≤ q2 / (g.resolution : ℚ) :=
        (div_le_div_iff_of_pos_right hc).mpr hq
      exact le_trans (Int.floor_mono hdivle) (Int.floor_le_ceil _)
  cases geom with
  | emptyGeom => exact ⟨key 0 0 le_rfl, key 0 0 le_rfl⟩
  | point px py => exact ⟨key px px le_rfl, key py py le_rfl⟩
  | rect a b c d => exact ⟨key a c hgeom.1, key b d hgeom.2⟩

theorem setGeometry_eq (g : GeometryIndexed) (geom : Geometry) (v : Nat)
    (minx miny maxx maxy : Int) (hB : g.geometryBounds geom = (minx, miny, maxx, maxy)) :
    g.setGeometry geom v =
      { g.fit_bounds minx miny maxx maxy with
        data := maskSet (g.fit_bounds minx miny maxx maxy).data
          ((g.fit_bounds minx miny maxx maxy).get_geometry_cells geom
            (some (minx, miny, maxx, maxy))) v } := by
  rw [GeometryIndexed.setGeometry, hB]

theorem get_geometry_cells_length (g : GeometryIndexed) (geom : Geometry)
    (bopt : Option (Int × Int × Int × Int)) :
    (g.get_geometry_cells geom bopt).length = g.height := by
  simp [GeometryIndexed.get_geometry_cells, mkGrid]

theorem get_geometry_cells_rows (g : GeometryIndexed) (geom : Geometry)
    (bopt : Option (Int × Int × Int × Int)) :
    ∀ r ∈ g.get_geometry_cells geom bopt, r.length = g.width := by
  intro r hr
  simp only [GeometryIndexed.get_geometry_cells, mkGrid, List.mem_map] at hr
  obtain ⟨i, _, rfl⟩ := hr
  simp

theorem rowSet_idem (row : List Nat) (mrow : List Bool) (v : Nat) :
    List.zipWith (fun c bb => if bb then v % 65536 else c)
      (List.zipWith (fun c bb => if bb then v % 65536 else c) row mrow) mrow =
    List.zipWith (fun c bb => if bb then v % 65536 else c) row mrow := by
  induction row generalizing mrow with
  | nil => rfl
  | cons c rest ih =>
    cases mrow with
    | nil => rfl
    | cons bb mrest =>
      simp only [List.zipWith_cons_cons]
      congr 1
      · cases bb <;> simp
      · exact ih mrest

theorem maskSet_idem (data : List (List Nat)) (mask : List (List Bool)) (v : Nat) :
    maskSet (maskSet data mask v) mask v = maskSet data mask v := by
  induction data generalizing mask with
  | nil => rfl
  | cons row rest ih =>
    cases mask with
    | nil => rfl
    | cons mrow mrest =>
      simp only [maskSet, List.zipWith_cons_cons]
      congr 1
      · exact rowSet_idem row mrow v
      · exact ih mrest

theorem maskSet_WF_update (g1 : GeometryIndexed) (hwf1 : g1.WF) (mask : List (List Bool))
    (hml : mask.length = g1.height) (hmr : ∀ r ∈ mask, r.length = g1.width) (v : Nat) :
    GeometryIndexed.WF { g1 with data := maskSet g1.data mask v } := by
  obtain ⟨hlen, hrows⟩ := hwf1
  constructor
  · show (maskSet g1.data mask v).length = g1.height
    rw [maskSet, List.length_zipWith, hlen, hml, Nat.min_self]
  · intro r hr
    show r.length = g1.width ∧ ∀ u ∈ r, u < 65536
    obtain ⟨i, hi, hrEq⟩ := List.mem_iff_getElem.mp hr
    have hi' : i < (List.zipWith (fun row mrow =>
        List.zipWith (fun c bb => if bb then v % 65536 else c) row mrow) g1.data mask).length := hi
    rw [List.length_zipWith] at hi'
    have hid : i < g1.data.length := lt_of_lt_of_le hi' (min_le_left _ _)
    have him : i < mask.length := lt_of_lt_of_le hi' (min_le_right _ _)
    obtain ⟨hrowlen, hrowvals⟩ := hrows _ (List.getElem_mem hid)
    have hmrowlen := hmr _ (List.getElem_mem him)
    have hrEq' : r = List.zipWith (fun c bb => if bb then v % 65536 else c)
        (g1.data.get ⟨i, hid⟩) (mask.get ⟨i, him⟩) := by
      rw [← hrEq]
      exact List.getElem_zipWith
    constructor
    · rw [hrEq', List.length_zipWith]
      simp only [List.get_eq_getElem]
      rw [hrowlen, hmrowlen, Nat.min_self]
    · intro u hu
      rw [hrEq'] at hu
      obtain ⟨k, hk, huEq⟩ := List.mem_iff_getElem.mp hu
      rw [List.getElem_zipWith] at huEq
      rw [← huEq]
      split
      · exact Nat.mod_lt v (by decide)
      · apply hrowvals
        simp only [List.get_eq_getElem]
        exact List.getElem_mem _

/-- C8: write idempotence: performing the geometry write (`fit_bounds` on the
geometry's cell-space envelope, then setting every selected cell) twice in a
row yields the same grid — resolution, origin, dimensions and cells — as
performing it once. -/
theorem claim_C8_write_idempotent (g : GeometryIndexed) (hwf : g.WF) (geom : Geometry)
    (hgeom : geom.WF) (v : Nat) :
    (g.setGeometry geom v).setGeometry geom v = g.setGeometry geom v := by
  obtain ⟨hbx, hby⟩ := geometry_bounds_le g geom hgeom
  rcases hB : g.geometryBounds geom with ⟨minx, miny, maxx, maxy⟩
  rw [hB] at hbx hby
  dsimp only at hbx hby
  have hg1wf : (g.fit_bounds minx miny maxx maxy).WF := fit_bounds_WF g hwf _ _ _ _
  have hsg := setGeometry_eq g geom v minx miny maxx maxy hB
  set g1 := g.fit_bounds minx miny maxx maxy with hg1def
  set mask := g1.get_geometry_cells geom (some (minx, miny, maxx, maxy)) with hmaskdef
  set g2 : GeometryIndexed := { g1 with data := maskSet g1.data mask v } with hg2def
  have hg2wf : g2.WF := maskSet_WF_update g1 hg1wf mask
    (by rw [hmaskdef]; exact get_geometry_cells_length g1 geom _)
    (by rw [hmaskdef]; exact get_geometry_cells_rows g1 geom _) v
  have hres2 : g2.resolution = g.resolution := by
    show g1.resolution = g.resolution
    rw [hg1def]
    exact fit_bounds_resolution g _ _ _ _
  have hB2 : g2.geometryBounds geom = (minx, miny, maxx, maxy) := by
    unfold GeometryIndexed.geometryBounds at hB ⊢
    rw [hres2]
    exact hB
  have hsg2 := setGeometry_eq g2 geom v minx miny maxx maxy hB2
  have hext := fit_bounds_extent g minx miny maxx maxy hbx hby
  rw [← hg1def] at hext
  have hfit2 : g2.fit_bounds minx miny maxx maxy = g2 := by
    by_cases hne : 0 < g2.width * g2.height
    · refine fit_bounds_covered_id g2 hg2wf _ _ _ _ hne ?_ ?_ ?_ ?_
      · exact hext.1
      · exact hext.2.1
      · exact hext.2.2.1
      · exact hext.2.2.2
    · have h0 : g2.width * g2.height = 0 := by omega
      have h0' : (g.fit_bounds minx miny maxx maxy).width *
          (g.fit_bounds minx miny maxx maxy).height = 0 := by
        rw [← hg1def]
        exact h0
      have hexact := fit_bounds_exact_of_size_zero g minx miny maxx maxy hbx hby h0'
      rw [← hg1def] at hexact
      exact fit_bounds_empty_id g2 hg2wf _ _ _ _ h0 hexact.1 hexact.2.1
        hexact.2.2.1 hexact.2.2.2
  have hmask2 : g2.get_geometry_cells geom (some (minx, miny, maxx, maxy)) = mask := by
    rw [hmaskdef]
    rfl
  rw [hsg, hsg2, hfit2, hmask2]
  have hdata : maskSet g2.data mask v = g2.data := by
    show maskSet (maskSet g1.data mask v) mask v = maskSet g1.data mask v
    exact maskSet_idem g1.data mask v
  show ({ g2 with data := maskSet g2.data mask v } : GeometryIndexed) = g2
  rw [hdata]

/-- Witness for C8 at the concrete write scenario of the spec. -/
theorem claim_C8_witness :
    ((⟨4, 0, 0, 0, 0, []⟩ : GeometryIndexed).setGeometry (Geometry.rect 0 0 8 8) 1).setGeometry
        (Geometry.rect 0 0 8 8) 1 =
      (⟨4, 0, 0, 0, 0, []⟩ : GeometryIndexed).setGeometry (Geometry.rect 0 0 8 8) 1 :=
  claim_C8_write_idempotent ⟨4, 0, 0, 0, 0, []⟩ ⟨rfl, by decide⟩ (Geometry.rect 0 0 8 8)
    ⟨by decide, by decide⟩ 1

/-! Lemmas about the process cache. -/

theorem countLoads_nil (key : Nat × Nat) : countLoads key [] = 0 := rfl

theorem countLoads_cons (key : Nat × Nat) (e : (Nat × Nat) × Bool)
    (log : List ((Nat × Nat) × Bool)) :
    countLoads key (e :: log) =
      (if e.1 = key ∧ e.2 = true then 1 else 0) + countLoads key log := by
  simp only [countLoads, List.filter_cons]
  by_cases h : e.1 = key ∧ e.2 = true
  · rw [if_pos (by simpa using h), if_pos h]
    simp [Nat.add_comm]
  · rw [if_neg (by simpa using h), if_neg h]
    simp

/-- A state is good for `(ck, key)` when its stored epoch is `ck` and `key`
is cached. -/
def GoodState (ck : Nat) (key : Nat × Nat) (st : LevelCacheState) : Prop :=
  st.cache_key = some ck ∧ ∃ r, lookupEntry st.cached key = some r

theorem step_no_load (load : Nat × Nat → Nat) (ck : Nat) (st : LevelCacheState)
    (key : Nat × Nat) (h : GoodState ck key st) :
    (open_level_cached load ck st key).2.2 = false ∧
    (open_level_cached load ck st key).2.1 = st := by
  obtain ⟨hck, r, hr⟩ := h
  rw [open_level_cached, if_pos hck, hr]
  exact ⟨rfl, rfl⟩

theorem step_good_after (load : Nat × Nat → Nat) (ck : Nat) (st : LevelCacheState)
    (key : Nat × Nat) : GoodState ck key (open_level_cached load ck st key).2.1 := by
  rw [open_level_cached]
  by_cases hck : st.cache_key = some ck
  · rw [if_pos hck]
    cases hl : lookupEntry st.cached key with
    | some r => exact ⟨hck, r, hl⟩
    | none =>
      refine ⟨hck, load key, ?_⟩
      simp [lookupEntry]
  · rw [if_neg hck]
    refine ⟨rfl, load key, ?_⟩
    simp [lookupEntry]

theorem step_good_preserve (load : Nat × Nat → Nat) (ck : Nat) (st : LevelCacheState)
    (key j : Nat × Nat) (h : GoodState ck key st) :
    GoodState ck key (open_level_cached load ck st j).2.1 := by
  obtain ⟨hck, r, hr⟩ := h
  rw [open_level_cached, if_pos hck]
  cases hl : lookupEntry st.cached j with
  | some r2 => exact ⟨hck, r, hr⟩
  | none =>
    refine ⟨hck, ?_⟩
    by_cases hjk : j = key
    · exact ⟨load j, by simp [lookupEntry, hjk]⟩
    · exact ⟨r, by simp only [lookupEntry, if_neg hjk]; exact hr⟩

theorem zero_loads_of_good (load : Nat × Nat → Nat) (ck : Nat) (key : Nat × Nat)
    (keys : List (Nat × Nat)) (st : LevelCacheState) (h : GoodState ck key st) :
    countLoads key (runCache load ck st keys) = 0 := by
  induction keys generalizing st with
  | nil => rfl
  | cons j keys ih =>
    rw [runCache, countLoads_cons]
    by_cases hjk : j = key
    · subst hjk
      obtain ⟨hstep, hstate⟩ := step_no_load load ck st j h
      rw [hstate, hstep]
      simp [ih st h]
    · rw [if_neg (by simp [hjk])]
      simp only [Nat.zero_add]
      exact ih _ (step_good_preserve load ck st key j h)

/-- C5: the epoch-keyed cache, as a step relation over `(mapping, stored
epoch)`: (1) when the external epoch token differs from the stored epoch the
whole mapping is discarded and the call loads fresh from the file store, for
any key; (2) while the epoch matches and the key is cached, the cached grid
is returned without loading; (3) over any run with a constant epoch token, at
most one load is performed per key. -/
theorem claim_C5_epoch_cache :
    (∀ (load : Nat × Nat → Nat) (ck : Nat) (st : LevelCacheState) (key : Nat × Nat),
      st.cache_key ≠ some ck →
      open_level_cached load ck st key =
        (load key, ⟨some ck, [(key, load key)]⟩, true)) ∧
    (∀ (load : Nat × Nat → Nat) (ck : Nat) (st : LevelCacheState) (key : Nat × Nat) (r : Nat),
      st.cache_key = some ck → lookupEntry st.cached key = some r →
      open_level_cached load ck st key = (r, st, false)) ∧
    (∀ (load : Nat × Nat → Nat) (ck : Nat) (st : LevelCacheState)
      (keys : List (Nat × Nat)) (key : Nat × Nat),
      countLoads key (runCache load ck st keys) ≤ 1) := by
  refine ⟨?_, ?_, ?_⟩
  · intro load ck st key hne
    rw [open_level_cached, if_neg hne]
  · intro load ck st key r hck hr
    rw [open_level_cached, if_pos hck, hr]
  · intro load ck st keys key
    induction keys generalizing st with
    | nil => simp [runCache, countLoads_nil]
    | cons j keys ih =>
      rw [runCache, countLoads_cons]
      by_cases hjk : j = key
      · subst hjk
        have hzero := zero_loads_of_good load ck j keys _
          (step_good_after load ck st j)
        rw [hzero]
        split <;> omega
      · rw [if_neg (by simp [hjk])]
        simp only [Nat.zero_add]
        exact ih _

/-- Witness for C5 at concrete cache states: an epoch change discards the
mapping and reloads; a matching epoch with a cached key returns it without
loading; a concrete constant-epoch run loads a key at most once. -/
theorem claim_C5_witness :
    (open_level_cached (fun _ => 42) 1 ⟨some 0, [((3, 0), 7)]⟩ (3, 0) =
      (42, ⟨some 1, [((3, 0), 42)]⟩, true)) ∧
    (open_level_cached (fun _ => 42) 1 ⟨some 1, [((3, 0), 7)]⟩ (3, 0) =
      (7, ⟨some 1, [((3, 0), 7)]⟩, false)) ∧
    countLoads (3, 0) (runCache (fun _ => 42) 1 ⟨none, []⟩
      [(3, 0), (3, 0), (2, 1), (3, 0)]) ≤ 1 :=
  ⟨claim_C5_epoch_cache.1 (fun _ => 42) 1 ⟨some 0, [((3, 0), 7)]⟩ (3, 0) (by decide),
   claim_C5_epoch_cache.2.1 (fun _ => 42) 1 ⟨some 1, [((3, 0), 7)]⟩ (3, 0) 7 rfl rfl,
   claim_C5_epoch_cache.2.2 (fun _ => 42) 1 ⟨none, []⟩ [(3, 0), (3, 0), (2, 1), (3, 0)] (3, 0)⟩
